import Mathlib

/-!
# Verification of the polymarket-cli snapshot-diff engine and chain store

Shallow embedding of the core of the `polymonitor/polymarket-cli` repository:

* `src/diff/computeDiff.ts` — the pure diff engine (`computeDiff`, `createEvent`,
  `positionChanged`, `calculatePnL`);
* `src/db/repositories/snapshot-repository.ts` — the snapshot chain store
  (`saveFirstSnapshot`, `saveSnapshotWithEvents`, `getLatest`, `getById`);
* `src/services/snapshot-service.ts` — the orchestration (`takeSnapshot`).

Modelling conventions:

* TypeScript `number` fields (share counts, prices, pnl) are modelled as `ℚ`;
  nullable fields as `Option`.
* `crypto.randomUUID()` produces a fresh random event id whose value no claim
  depends on; `createEvent` fills the `eventId` field with a placeholder `""`.
* The SQLite database is modelled as an explicit `Store` state: a list of
  snapshot rows (in insertion order, ids assigned by the autoincrement counter)
  and a list of event rows.  Each `await db.insert(...)` in the source executes
  as its own implicit SQLite transaction (the repository never opens an
  explicit transaction), so each insert is modelled as a separate state update;
  a failing insert statement leaves the state of the preceding statements in
  place.
* `ORDER BY timestamp DESC LIMIT 1` over the wallet's rows is modelled by a
  fold that keeps a row with maximal `timestamp` (SQLite compares the TEXT
  column lexicographically; `String` carries its lexicographic order here).
-/

namespace Polymonitor

/-- `resolvedOutcome` values, from `types/core` (`"yes" | "no" | "invalid" | "unresolved"`). -/
inductive MarketOutcome where
  | yes
  | no
  | invalid
  | unresolved
deriving DecidableEq, Repr

/-- `EventType` union from `types/core`. -/
inductive EventType where
  | POSITION_OPENED
  | POSITION_UPDATED
  | POSITION_CLOSED
  | MARKET_RESOLVED
deriving DecidableEq, Repr

/-- `Position` interface from `types/core`: one market's holdings. -/
structure Position where
  marketId : String
  marketTitle : String
  yesShares : ℚ
  noShares : ℚ
  yesAvgPrice : Option ℚ
  noAvgPrice : Option ℚ
  resolvedOutcome : MarketOutcome
deriving DecidableEq, Repr

/-- `Snapshot` interface from `types/core`. -/
structure Snapshot where
  wallet : String
  timestamp : String
  positions : List Position
deriving DecidableEq, Repr

/-- `DiffEvent` from `types/core`: an event as produced by the diff engine,
before the repository assigns a `snapshotId`.  The `eventId` is generated by
`crypto.randomUUID()` in the source; its (random) value is irrelevant to every
claim and is modelled by the placeholder `""`. -/
structure DiffEvent where
  eventId : String
  wallet : String
  eventType : EventType
  marketId : String
  marketTitle : String
  prevYesShares : Option ℚ
  prevNoShares : Option ℚ
  prevYesAvgPrice : Option ℚ
  prevNoAvgPrice : Option ℚ
  currYesShares : Option ℚ
  currNoShares : Option ℚ
  currYesAvgPrice : Option ℚ
  currNoAvgPrice : Option ℚ
  resolvedOutcome : MarketOutcome
  pnl : Option ℚ
deriving DecidableEq, Repr

/-- `WalletEvent` from `types/core`: a `DiffEvent` together with the
`snapshotId` assigned at persistence time (`{...event, snapshotId}`). -/
structure WalletEvent extends DiffEvent where
  snapshotId : Nat
deriving DecidableEq, Repr

/-- `createEvent` from `src/diff/computeDiff.ts` (lines 143-168): builds an
event with complete before/after state.  `prev?.x ?? null` on a non-nullable
field is `Option.map`, on a nullable field it collapses the two nulls
(`Option.bind`); `curr?.resolvedOutcome ?? prev?.resolvedOutcome ?? "unresolved"`
is the nested match. -/
def createEvent (type : EventType) (wallet : String) (marketId : String)
    (marketTitle : String) (prev : Option Position) (curr : Option Position) :
    DiffEvent :=
  { eventId := ""
    wallet := wallet
    eventType := type
    marketId := marketId
    marketTitle := marketTitle
    prevYesShares := prev.map (·.yesShares)
    prevNoShares := prev.map (·.noShares)
    prevYesAvgPrice := prev.bind (·.yesAvgPrice)
    prevNoAvgPrice := prev.bind (·.noAvgPrice)
    currYesShares := curr.map (·.yesShares)
    currNoShares := curr.map (·.noShares)
    currYesAvgPrice := curr.bind (·.yesAvgPrice)
    currNoAvgPrice := curr.bind (·.noAvgPrice)
    resolvedOutcome :=
      match curr with
      | some c => c.resolvedOutcome
      | none =>
        match prev with
        | some p => p.resolvedOutcome
        | none => .unresolved
    pnl := none }

/-- `positionChanged` from `src/diff/computeDiff.ts` (lines 177-184): strict
(exact) inequality on the four share/price fields, no tolerance. -/
def positionChanged (prev : Position) (curr : Position) : Bool :=
  decide (prev.yesShares ≠ curr.yesShares) ||
  decide (prev.noShares ≠ curr.noShares) ||
  decide (prev.yesAvgPrice ≠ curr.yesAvgPrice) ||
  decide (prev.noAvgPrice ≠ curr.noAvgPrice)

/-- `calculatePnL` from `src/diff/computeDiff.ts` (lines 204-243).  A null
average price contributes a `0` cost basis (`?? 0`). -/
def calculatePnL (position : Position) (resolvedOutcome : MarketOutcome) : ℚ :=
  match resolvedOutcome with
  | .unresolved => 0
  | .yes =>
    let yesPayout := position.yesShares * 1
    let yesCost := position.yesShares * (position.yesAvgPrice.getD 0)
    let yesPnL := yesPayout - yesCost
    let noCost := position.noShares * (position.noAvgPrice.getD 0)
    let noPnL := 0 - noCost
    yesPnL + noPnL
  | .no =>
    let noPayout := position.noShares * 1
    let noCost := position.noShares * (position.noAvgPrice.getD 0)
    let noPnL := noPayout - noCost
    let yesCost := position.yesShares * (position.yesAvgPrice.getD 0)
    let yesPnL := 0 - yesCost
    yesPnL + noPnL
  | .invalid => 0

/-- Lookup in `new Map(positions.map(p => [p.marketId, p]))`: when several
positions share a `marketId` the later entry overwrites the earlier one, so
`.get` returns the last matching position. -/
def positionsMapGet (positions : List Position) (marketId : String) :
    Option Position :=
  positions.reverse.find? (fun p => p.marketId == marketId)

/-- Events pushed for one position of the current snapshot (the first loop of
`computeDiff`, lines 56-108): `POSITION_OPENED` when the market is absent from
the previous snapshot; otherwise a `POSITION_UPDATED` event when
`positionChanged`, followed by a `MARKET_RESOLVED` event (with `pnl`) when the
previous outcome was `unresolved` and the current one is not. -/
def diffEventsForCurrent (prevSnapshot : Snapshot) (currSnapshot : Snapshot)
    (currPos : Position) : List DiffEvent :=
  match positionsMapGet prevSnapshot.positions currPos.marketId with
  | none =>
    [createEvent .POSITION_OPENED currSnapshot.wallet currPos.marketId
      currPos.marketTitle none (some currPos)]
  | some prevPos =>
    (if positionChanged prevPos currPos then
      [createEvent .POSITION_UPDATED currSnapshot.wallet currPos.marketId
        currPos.marketTitle (some prevPos) (some currPos)]
    else []) ++
    (if prevPos.resolvedOutcome = .unresolved ∧
        currPos.resolvedOutcome ≠ .unresolved then
      [{ createEvent .MARKET_RESOLVED currSnapshot.wallet currPos.marketId
          currPos.marketTitle (some prevPos) (some currPos) with
        pnl := some (calculatePnL currPos currPos.resolvedOutcome) }]
    else [])

/-- Events pushed for one position of the previous snapshot (the second loop
of `computeDiff`, lines 111-127): `POSITION_CLOSED` when the market is absent
from the current snapshot. -/
def diffEventsForPrevious (prevSnapshot : Snapshot) (currSnapshot : Snapshot)
    (prevPos : Position) : List DiffEvent :=
  match positionsMapGet currSnapshot.positions prevPos.marketId with
  | some _ => []
  | none =>
    [createEvent .POSITION_CLOSED currSnapshot.wallet prevPos.marketId
      prevPos.marketTitle (some prevPos) none]

/-- `computeDiff` from `src/diff/computeDiff.ts` (lines 36-130): returns `[]`
for a first snapshot, otherwise the events of the current-positions loop
followed by the events of the previous-positions loop, in iteration order. -/
def computeDiff (prevSnapshot : Option Snapshot) (currSnapshot : Snapshot) :
    List DiffEvent :=
  match prevSnapshot with
  | none => []
  | some prev =>
    currSnapshot.positions.flatMap (diffEventsForCurrent prev currSnapshot) ++
    prev.positions.flatMap (diffEventsForPrevious prev currSnapshot)

/-- A sample position: 200 YES shares bought at an average price of 0.55,
used by concrete witnesses below (spec §8's concrete scenario). -/
def samplePosition : Position :=
  { marketId := "m1"
    marketTitle := "Sample market"
    yesShares := 200
    noShares := 0
    yesAvgPrice := some (11/20)
    noAvgPrice := none
    resolvedOutcome := .yes }

example : computeDiff none { wallet := "w", timestamp := "t", positions := [samplePosition] } = [] := by rfl

example : calculatePnL samplePosition .yes = 90 := by norm_num [calculatePnL, samplePosition]

/-! ## Lemmas about the position lookup map -/

lemma find?_marketId_self :
    ∀ {ps : List Position}, (ps.map Position.marketId).Nodup →
      ∀ {p : Position}, p ∈ ps →
        ps.find? (fun q => q.marketId == p.marketId) = some p := by
  intro ps
  induction ps with
  | nil => intro _ p hp; cases hp
  | cons a l ih =>
    intro hnd p hp
    rw [List.map_cons, List.nodup_cons] at hnd
    obtain ⟨ha, hl⟩ := hnd
    rcases List.mem_cons.mp hp with rfl | hp'
    · exact List.find?_cons_of_pos _ (by simp)
    · have hidmem : p.marketId ∈ l.map Position.marketId :=
        List.mem_map_of_mem _ hp'
      have hne : a.marketId ≠ p.marketId := fun h => ha (h ▸ hidmem)
      rw [List.find?_cons_of_neg _ (by simpa using hne)]
      exact ih hl hp'

/-- With `marketId`-distinct positions, the lookup map returns the position
itself at its own key. -/
lemma positionsMapGet_self {ps : List Position}
    (hnd : (ps.map Position.marketId).Nodup) {p : Position} (hp : p ∈ ps) :
    positionsMapGet ps p.marketId = some p := by
  unfold positionsMapGet
  have hnd' : (ps.reverse.map Position.marketId).Nodup := by
    rw [List.map_reverse, List.nodup_reverse]
    exact hnd
  exact find?_marketId_self hnd' (List.mem_reverse.mpr hp)

lemma positionsMapGet_eq_none_iff {ps : List Position} {k : String} :
    positionsMapGet ps k = none ↔ ∀ p ∈ ps, p.marketId ≠ k := by
  unfold positionsMapGet
  rw [List.find?_eq_none]
  constructor
  · intro h p hp
    have := h p (List.mem_reverse.mpr hp)
    simpa using this
  · intro h p hp
    have := h p (List.mem_reverse.mp hp)
    simpa using this

lemma positionsMapGet_isSome {ps : List Position} {p : Position}
    (hp : p ∈ ps) {k : String} (hk : p.marketId = k) :
    ∃ q, positionsMapGet ps k = some q := by
  cases hget : positionsMapGet ps k with
  | some q => exact ⟨q, rfl⟩
  | none => exact absurd hk (positionsMapGet_eq_none_iff.mp hget p hp)

/-! ## Lemmas about the events generated for one position -/

lemma marketId_of_mem_diffEventsForCurrent {prev curr : Snapshot}
    {pos : Position} {e : DiffEvent}
    (he : e ∈ diffEventsForCurrent prev curr pos) :
    e.marketId = pos.marketId := by
  unfold diffEventsForCurrent at he
  rcases hget : positionsMapGet prev.positions pos.marketId with _ | prevPos <;>
    rw [hget] at he
  · simp only [List.mem_singleton] at he
    subst he; rfl
  · rcases List.mem_append.mp he with h | h <;> split at h <;>
      simp only [List.mem_singleton, List.not_mem_nil] at h <;>
      subst h <;> rfl

lemma wallet_of_mem_diffEventsForCurrent {prev curr : Snapshot}
    {pos : Position} {e : DiffEvent}
    (he : e ∈ diffEventsForCurrent prev curr pos) :
    e.wallet = curr.wallet := by
  unfold diffEventsForCurrent at he
  rcases hget : positionsMapGet prev.positions pos.marketId with _ | prevPos <;>
    rw [hget] at he
  · simp only [List.mem_singleton] at he
    subst he; rfl
  · rcases List.mem_append.mp he with h | h <;> split at h <;>
      simp only [List.mem_singleton, List.not_mem_nil] at h <;>
      subst h <;> rfl

lemma marketId_of_mem_diffEventsForPrevious {prev curr : Snapshot}
    {pos : Position} {e : DiffEvent}
    (he : e ∈ diffEventsForPrevious prev curr pos) :
    e.marketId = pos.marketId := by
  unfold diffEventsForPrevious at he
  rcases hget : positionsMapGet curr.positions pos.marketId with _ | q <;>
    rw [hget] at he
  · simp only [List.mem_singleton] at he
    subst he; rfl
  · simp only [List.not_mem_nil] at he

lemma wallet_of_mem_diffEventsForPrevious {prev curr : Snapshot}
    {pos : Position} {e : DiffEvent}
    (he : e ∈ diffEventsForPrevious prev curr pos) :
    e.wallet = curr.wallet := by
  unfold diffEventsForPrevious at he
  rcases hget : positionsMapGet curr.positions pos.marketId with _ | q <;>
    rw [hget] at he
  · simp only [List.mem_singleton] at he
    subst he; rfl
  · simp only [List.not_mem_nil] at he

/-! ## Filtering the diff output down to one market -/

lemma filter_flatMap_marketId (f : Position → List DiffEvent) (m : String) :
    ∀ (l : List Position), (∀ p ∈ l, ∀ e ∈ f p, e.marketId = p.marketId) →
      (l.flatMap f).filter (fun e => e.marketId == m) =
        (l.filter (fun p => p.marketId == m)).flatMap f := by
  intro l
  induction l with
  | nil => intro _; simp
  | cons a t ih =>
    intro hf
    rw [List.flatMap_cons, List.filter_append,
      ih (fun p hp => hf p (List.mem_cons_of_mem a hp)), List.filter_cons]
    by_cases hm : a.marketId = m
    · have hall : (f a).filter (fun e => e.marketId == m) = f a :=
        List.filter_eq_self.mpr (fun e he => by
          simp [hf a (List.mem_cons_self a t) e he, hm])
      simp [hm, hall, List.flatMap_cons]
    · have hnil : (f a).filter (fun e => e.marketId == m) = [] :=
        List.filter_eq_nil_iff.mpr (fun e he => by
          simp [hf a (List.mem_cons_self a t) e he, hm])
      simp [hm, hnil]

lemma filter_marketId_self :
    ∀ {ps : List Position}, (ps.map Position.marketId).Nodup →
      ∀ {p : Position}, p ∈ ps →
        ps.filter (fun q => q.marketId == p.marketId) = [p] := by
  intro ps
  induction ps with
  | nil => intro _ p hp; cases hp
  | cons a l ih =>
    intro hnd p hp
    rw [List.map_cons, List.nodup_cons] at hnd
    obtain ⟨ha, hl⟩ := hnd
    rcases List.mem_cons.mp hp with rfl | hp'
    · rw [List.filter_cons_of_pos (by simp)]
      have : l.filter (fun q => q.marketId == p.marketId) = [] :=
        List.filter_eq_nil_iff.mpr (fun q hq => by
          have : q.marketId ∈ l.map Position.marketId :=
            List.mem_map_of_mem _ hq
          simp only [beq_iff_eq]
          intro hEq
          exact ha (hEq ▸ this))
      rw [this]
    · have hidmem : p.marketId ∈ l.map Position.marketId :=
        List.mem_map_of_mem _ hp'
      have hne : a.marketId ≠ p.marketId := fun h => ha (h ▸ hidmem)
      rw [List.filter_cons_of_neg (by simpa using hne)]
      exact ih hl hp'

/-- Restricting `computeDiff` to the events of one market that is present in
both snapshots: the `POSITION_CLOSED` loop contributes nothing, and the
current-positions loop contributes the update/resolution events of that
market's position pair. -/
lemma computeDiff_filter_market {prev curr : Snapshot}
    (hndPrev : (prev.positions.map Position.marketId).Nodup)
    (hndCurr : (curr.positions.map Position.marketId).Nodup)
    {pPrev pCurr : Position}
    (hP : pPrev ∈ prev.positions) (hC : pCurr ∈ curr.positions)
    (hid : pPrev.marketId = pCurr.marketId) :
    (computeDiff (some prev) curr).filter
        (fun e => e.marketId == pCurr.marketId) =
      (if positionChanged pPrev pCurr then
        [createEvent .POSITION_UPDATED curr.wallet pCurr.marketId
          pCurr.marketTitle (some pPrev) (some pCurr)]
      else []) ++
      (if pPrev.resolvedOutcome = .unresolved ∧
          pCurr.resolvedOutcome ≠ .unresolved then
        [{ createEvent .MARKET_RESOLVED curr.wallet pCurr.marketId
            pCurr.marketTitle (some pPrev) (some pCurr) with
          pnl := some (calculatePnL pCurr pCurr.resolvedOutcome) }]
      else []) := by
  unfold computeDiff
  rw [List.filter_append]
  rw [filter_flatMap_marketId _ _ _
    (fun p hp e he => marketId_of_mem_diffEventsForCurrent he)]
  rw [filter_flatMap_marketId _ _ _
    (fun p hp e he => marketId_of_mem_diffEventsForPrevious he)]
  have hfiltPrev :
      prev.positions.filter (fun q => q.marketId == pCurr.marketId) =
        [pPrev] := by
    rw [← hid]
    exact filter_marketId_self hndPrev hP
  rw [filter_marketId_self hndCurr hC, hfiltPrev]
  have hclosed : diffEventsForPrevious prev curr pPrev = [] := by
    unfold diffEventsForPrevious
    obtain ⟨q, hq⟩ := positionsMapGet_isSome hC hid.symm
    rw [hq]
  have hget : positionsMapGet prev.positions pCurr.marketId = some pPrev := by
    rw [← hid]
    exact positionsMapGet_self hndPrev hP
  simp only [List.flatMap_cons, List.flatMap_nil, List.append_nil, hclosed]
  unfold diffEventsForCurrent
  rw [hget]

lemma positionChanged_self (p : Position) : positionChanged p p = false := by
  simp [positionChanged]

lemma positionChanged_eq_true_iff (prev curr : Position) :
    positionChanged prev curr = true ↔
      (prev.yesShares ≠ curr.yesShares ∨ prev.noShares ≠ curr.noShares ∨
       prev.yesAvgPrice ≠ curr.yesAvgPrice ∨ prev.noAvgPrice ≠ curr.noAvgPrice) := by
  simp [positionChanged, or_assoc]

/-! ## Claims about the PnL calculator -/

/-- **C3**: for every position and non-`unresolved` outcome, `calculatePnL`
returns exactly the settlement formula of §4.3: for `yes`,
`yesShares * (1 - yesAvgPrice_or_0) - noShares * noAvgPrice_or_0`; for `no`,
the symmetric formula; for `invalid`, `0`; a null average price counts as a
`0` cost basis. -/
theorem calculatePnL_settlement_formula (p : Position) (o : MarketOutcome)
    (ho : o ≠ .unresolved) :
    calculatePnL p o =
      match o with
      | .yes => p.yesShares * (1 - p.yesAvgPrice.getD 0) -
          p.noShares * p.noAvgPrice.getD 0
      | .no => p.noShares * (1 - p.noAvgPrice.getD 0) -
          p.yesShares * p.yesAvgPrice.getD 0
      | .invalid => 0
      | .unresolved => 0 := by
  cases o with
  | unresolved => exact absurd rfl ho
  | yes =>
    show calculatePnL p .yes =
      p.yesShares * (1 - p.yesAvgPrice.getD 0) - p.noShares * p.noAvgPrice.getD 0
    simp only [calculatePnL]
    ring
  | no =>
    show calculatePnL p .no =
      p.noShares * (1 - p.noAvgPrice.getD 0) - p.yesShares * p.yesAvgPrice.getD 0
    simp only [calculatePnL]
    ring
  | invalid => rfl

/-- Witness for C3 at the spec §8 scenario: 200 YES shares at average price
0.55, market resolves `yes`, pnl `= 200 * (1 - 0.55) - 0 = 90`. -/
theorem calculatePnL_settlement_formula_witness :
    MarketOutcome.yes ≠ MarketOutcome.unresolved ∧
      calculatePnL samplePosition .yes = 90 := by
  refine ⟨by decide, ?_⟩
  rw [calculatePnL_settlement_formula samplePosition .yes (by decide)]
  norm_num [samplePosition]

/-- **C9**: `calculatePnL` is total outside its stated precondition: called
with `unresolved` it returns `0` (the early return on line 208) instead of
failing, so the diff engine's resolution check never raises. -/
theorem calculatePnL_unresolved_eq_zero (p : Position) :
    calculatePnL p .unresolved = 0 := rfl

/-! ## Claims about the diff engine -/

/-- **C8**: no-op stability. `computeDiff(null, s) = []` for every snapshot,
and `computeDiff(s, s) = []` for every snapshot whose positions are unique by
`marketId` (the Snapshot invariant of §3; duplicate `marketId`s are undefined
behavior per §7). -/
theorem computeDiff_noop_stability (s : Snapshot) :
    computeDiff none s = [] ∧
      ((s.positions.map Position.marketId).Nodup →
        computeDiff (some s) s = []) := by
  refine ⟨rfl, fun hnd => ?_⟩
  unfold computeDiff
  rw [List.append_eq_nil]
  refine ⟨List.flatMap_eq_nil_iff.mpr fun pos hpos => ?_,
    List.flatMap_eq_nil_iff.mpr fun pos hpos => ?_⟩
  · have hget := positionsMapGet_self hnd hpos
    simp [diffEventsForCurrent, hget, positionChanged_self]
  · unfold diffEventsForPrevious
    obtain ⟨q, hq⟩ := positionsMapGet_isSome hpos rfl
    rw [hq]

/-- A one-position snapshot used as a concrete witness input. -/
def sampleSnapshot : Snapshot :=
  { wallet := "w", timestamp := "2024-01-01T00:00:00.000Z",
    positions := [samplePosition] }

/-- Witness for C8 at a concrete one-position snapshot. -/
theorem computeDiff_noop_stability_witness :
    computeDiff none sampleSnapshot = [] ∧
      computeDiff (some sampleSnapshot) sampleSnapshot = [] :=
  ⟨(computeDiff_noop_stability sampleSnapshot).1,
   (computeDiff_noop_stability sampleSnapshot).2 (by decide)⟩

/-- **C10**: every event produced by `computeDiff` — `POSITION_CLOSED` events
for previous-only markets included — carries the *current* snapshot's wallet;
the previous snapshot's wallet is never copied into an event. -/
theorem computeDiff_event_wallet (prevSnapshot : Option Snapshot)
    (currSnapshot : Snapshot) (e : DiffEvent)
    (he : e ∈ computeDiff prevSnapshot currSnapshot) :
    e.wallet = currSnapshot.wallet := by
  cases prevSnapshot with
  | none => simp [computeDiff] at he
  | some prev =>
    unfold computeDiff at he
    rcases List.mem_append.mp he with h | h
    · obtain ⟨p, _, he'⟩ := List.mem_flatMap.mp h
      exact wallet_of_mem_diffEventsForCurrent he'
    · obtain ⟨p, _, he'⟩ := List.mem_flatMap.mp h
      exact wallet_of_mem_diffEventsForPrevious he'

/-- Previous snapshot for the C10 witness: a different wallet than the
current snapshot, holding one position that disappears. -/
def walletWitnessPrev : Snapshot :=
  { wallet := "wPrev", timestamp := "2024-01-01T00:00:00.000Z",
    positions := [samplePosition] }

/-- Current snapshot for the C10 witness: empty position list, so the diff
emits one `POSITION_CLOSED` event. -/
def walletWitnessCurr : Snapshot :=
  { wallet := "wCurr", timestamp := "2024-01-02T00:00:00.000Z",
    positions := [] }

/-- The `POSITION_CLOSED` event the diff emits for the C10 witness pair. -/
def walletWitnessEvent : DiffEvent :=
  createEvent .POSITION_CLOSED walletWitnessCurr.wallet
    samplePosition.marketId samplePosition.marketTitle (some samplePosition)
    none

/-- Witness for C10: the closed-market event of a concrete diff carries the
current snapshot's wallet, which differs from the previous snapshot's. -/
lemma walletWitness_diff_eq :
    computeDiff (some walletWitnessPrev) walletWitnessCurr =
      [walletWitnessEvent] := rfl

theorem computeDiff_event_wallet_witness :
    walletWitnessEvent ∈ computeDiff (some walletWitnessPrev) walletWitnessCurr ∧
      walletWitnessEvent.wallet = walletWitnessCurr.wallet ∧
      walletWitnessCurr.wallet ≠ walletWitnessPrev.wallet :=
  ⟨walletWitness_diff_eq ▸ List.mem_singleton.mpr rfl,
   computeDiff_event_wallet (some walletWitnessPrev) walletWitnessCurr
     walletWitnessEvent (walletWitness_diff_eq ▸ List.mem_singleton.mpr rfl),
   by decide⟩

/-- **C4**: for a market present in both snapshots (snapshots unique by
`marketId`, §3), whose position changed AND whose outcome transitions
`unresolved → resolved`, the diff restricted to that market is exactly
`[UPDATED, RESOLVED]` in that order, the `RESOLVED` event carrying
`pnl = calculatePnL(currentPosition, currentOutcome)`; a pure resolution
transition yields exactly `[RESOLVED]`; and when the previous outcome was
already resolved, no `MARKET_RESOLVED` event is emitted for the market. -/
theorem computeDiff_dual_event_on_change_and_resolution
    (prev curr : Snapshot)
    (hndPrev : (prev.positions.map Position.marketId).Nodup)
    (hndCurr : (curr.positions.map Position.marketId).Nodup)
    (pPrev pCurr : Position)
    (hP : pPrev ∈ prev.positions) (hC : pCurr ∈ curr.positions)
    (hid : pPrev.marketId = pCurr.marketId) :
    (pPrev.resolvedOutcome = .unresolved → pCurr.resolvedOutcome ≠ .unresolved →
      ((positionChanged pPrev pCurr = true →
        (computeDiff (some prev) curr).filter
            (fun e => e.marketId == pCurr.marketId) =
          [createEvent .POSITION_UPDATED curr.wallet pCurr.marketId
            pCurr.marketTitle (some pPrev) (some pCurr),
           { createEvent .MARKET_RESOLVED curr.wallet pCurr.marketId
              pCurr.marketTitle (some pPrev) (some pCurr) with
            pnl := some (calculatePnL pCurr pCurr.resolvedOutcome) }]) ∧
       (positionChanged pPrev pCurr = false →
        (computeDiff (some prev) curr).filter
            (fun e => e.marketId == pCurr.marketId) =
          [{ createEvent .MARKET_RESOLVED curr.wallet pCurr.marketId
              pCurr.marketTitle (some pPrev) (some pCurr) with
            pnl := some (calculatePnL pCurr pCurr.resolvedOutcome) }]))) ∧
    (pPrev.resolvedOutcome ≠ .unresolved →
      ∀ e ∈ computeDiff (some prev) curr,
        e.marketId = pCurr.marketId → e.eventType ≠ .MARKET_RESOLVED) := by
  have hfilter := computeDiff_filter_market hndPrev hndCurr hP hC hid
  constructor
  · intro hu hr
    have hcond : pPrev.resolvedOutcome = MarketOutcome.unresolved ∧
        pCurr.resolvedOutcome ≠ MarketOutcome.unresolved := ⟨hu, hr⟩
    constructor
    · intro hch
      rw [hfilter, if_pos hch, if_pos hcond]
      rfl
    · intro hch
      rw [hfilter, hch, if_pos hcond]
      simp
  · intro hne e he hmid
    have hmem : e ∈ (computeDiff (some prev) curr).filter
        (fun x => x.marketId == pCurr.marketId) :=
      List.mem_filter.mpr ⟨he, by simp [hmid]⟩
    have hnres : ¬(pPrev.resolvedOutcome = MarketOutcome.unresolved ∧
        pCurr.resolvedOutcome ≠ MarketOutcome.unresolved) :=
      fun hand => hne hand.1
    rw [hfilter, if_neg hnres, List.append_nil] at hmem
    intro hty
    by_cases hch : positionChanged pPrev pCurr = true
    · rw [if_pos hch, List.mem_singleton] at hmem
      subst hmem
      simp [createEvent] at hty
    · rw [if_neg hch] at hmem
      exact List.not_mem_nil e hmem

/-- Previous snapshot for the C4 witness: 100 YES shares at 0.50,
unresolved. -/
def dualWitnessPrevPos : Position :=
  { marketId := "m1"
    marketTitle := "Sample market"
    yesShares := 100
    noShares := 0
    yesAvgPrice := some (1/2)
    noAvgPrice := none
    resolvedOutcome := .unresolved }

/-- Previous snapshot holding `dualWitnessPrevPos`. -/
def dualWitnessPrev : Snapshot :=
  { wallet := "w", timestamp := "2024-01-01T00:00:00.000Z",
    positions := [dualWitnessPrevPos] }

/-- Current snapshot for the C4 witness: the same market now holds 200 YES
shares at 0.55 and has resolved `yes` — `samplePosition`. -/
def dualWitnessCurr : Snapshot :=
  { wallet := "w", timestamp := "2024-01-02T00:00:00.000Z",
    positions := [samplePosition] }

/-- Witness for C4: the simultaneous change-and-resolve transition produces
exactly the `[UPDATED, RESOLVED]` pair for the market. -/
theorem computeDiff_dual_event_witness :
    (computeDiff (some dualWitnessPrev) dualWitnessCurr).filter
        (fun e => e.marketId == samplePosition.marketId) =
      [createEvent .POSITION_UPDATED dualWitnessCurr.wallet
        samplePosition.marketId samplePosition.marketTitle
        (some dualWitnessPrevPos) (some samplePosition),
       { createEvent .MARKET_RESOLVED dualWitnessCurr.wallet
          samplePosition.marketId samplePosition.marketTitle
          (some dualWitnessPrevPos) (some samplePosition) with
        pnl := some (calculatePnL samplePosition samplePosition.resolvedOutcome) }] :=
  ((computeDiff_dual_event_on_change_and_resolution dualWitnessPrev
      dualWitnessCurr (by decide) (by decide) dualWitnessPrevPos samplePosition
      (List.mem_singleton.mpr rfl) (List.mem_singleton.mpr rfl) rfl).1
    (by decide) (by decide)).1 (by norm_num [positionChanged, dualWitnessPrevPos, samplePosition])

/-- **C5**: for a market present in both snapshots, an `UPDATED` event is
emitted iff one of the four share/price fields differs under exact equality
(no epsilon), and that single event carries the complete before and after
state of all four fields — spelled out as an explicit record below. -/
theorem computeDiff_updated_iff_field_changed
    (prev curr : Snapshot)
    (hndPrev : (prev.positions.map Position.marketId).Nodup)
    (hndCurr : (curr.positions.map Position.marketId).Nodup)
    (pPrev pCurr : Position)
    (hP : pPrev ∈ prev.positions) (hC : pCurr ∈ curr.positions)
    (hid : pPrev.marketId = pCurr.marketId) :
    (computeDiff (some prev) curr).filter
        (fun e => e.eventType == EventType.POSITION_UPDATED &&
          e.marketId == pCurr.marketId) =
      (if pPrev.yesShares ≠ pCurr.yesShares ∨ pPrev.noShares ≠ pCurr.noShares ∨
          pPrev.yesAvgPrice ≠ pCurr.yesAvgPrice ∨
          pPrev.noAvgPrice ≠ pCurr.noAvgPrice then
        [{ eventId := ""
           wallet := curr.wallet
           eventType := .POSITION_UPDATED
           marketId := pCurr.marketId
           marketTitle := pCurr.marketTitle
           prevYesShares := some pPrev.yesShares
           prevNoShares := some pPrev.noShares
           prevYesAvgPrice := pPrev.yesAvgPrice
           prevNoAvgPrice := pPrev.noAvgPrice
           currYesShares := some pCurr.yesShares
           currNoShares := some pCurr.noShares
           currYesAvgPrice := pCurr.yesAvgPrice
           currNoAvgPrice := pCurr.noAvgPrice
           resolvedOutcome := pCurr.resolvedOutcome
           pnl := none }]
      else []) := by
  rw [← List.filter_filter, computeDiff_filter_market hndPrev hndCurr hP hC hid]
  rw [List.filter_append]
  have hres : (if pPrev.resolvedOutcome = .unresolved ∧
      pCurr.resolvedOutcome ≠ .unresolved then
        [{ createEvent .MARKET_RESOLVED curr.wallet pCurr.marketId
            pCurr.marketTitle (some pPrev) (some pCurr) with
          pnl := some (calculatePnL pCurr pCurr.resolvedOutcome) }]
      else []).filter (fun e => e.eventType == EventType.POSITION_UPDATED) = [] := by
    split
    · simp [createEvent]
    · rfl
  rw [hres, List.append_nil]
  by_cases hch : positionChanged pPrev pCurr = true
  · rw [if_pos hch, if_pos ((positionChanged_eq_true_iff pPrev pCurr).mp hch)]
    simp [createEvent]
  · rw [if_neg hch,
      if_neg (fun hd => hch ((positionChanged_eq_true_iff pPrev pCurr).mpr hd))]
    rfl

/-- Witness for C5: the 100→200-share move at the concrete witness pair
yields exactly one `UPDATED` event carrying all eight before/after fields. -/
theorem computeDiff_updated_iff_field_changed_witness :
    (computeDiff (some dualWitnessPrev) dualWitnessCurr).filter
        (fun e => e.eventType == EventType.POSITION_UPDATED &&
          e.marketId == samplePosition.marketId) =
      [{ eventId := ""
         wallet := dualWitnessCurr.wallet
         eventType := .POSITION_UPDATED
         marketId := samplePosition.marketId
         marketTitle := samplePosition.marketTitle
         prevYesShares := some dualWitnessPrevPos.yesShares
         prevNoShares := some dualWitnessPrevPos.noShares
         prevYesAvgPrice := dualWitnessPrevPos.yesAvgPrice
         prevNoAvgPrice := dualWitnessPrevPos.noAvgPrice
         currYesShares := some samplePosition.yesShares
         currNoShares := some samplePosition.noShares
         currYesAvgPrice := samplePosition.yesAvgPrice
         currNoAvgPrice := samplePosition.noAvgPrice
         resolvedOutcome := samplePosition.resolvedOutcome
         pnl := none }] := by
  rw [computeDiff_updated_iff_field_changed dualWitnessPrev dualWitnessCurr
    (by decide) (by decide) dualWitnessPrevPos samplePosition
    (List.mem_singleton.mpr rfl) (List.mem_singleton.mpr rfl) rfl]
  rw [if_pos (by norm_num [dualWitnessPrevPos, samplePosition])]

/-! ## The snapshot chain store

Embedding of `SnapshotRepository` (`src/db/repositories/snapshot-repository.ts`)
over the `snapshots` and `events` tables of `src/db/schema.ts`, and of
`SnapshotService.takeSnapshot` (`src/services/snapshot-service.ts`). -/

/-- A row of the `snapshots` table: autoincrement integer primary key,
wallet, the JSON `snapshot_data` blob, the wallet-supplied `timestamp` TEXT
column, and the predecessor link (`prev_snapshot_id`, null for a first
snapshot). -/
structure SnapshotRow where
  id : Nat
  wallet : String
  snapshotData : Snapshot
  timestamp : String
  prevSnapshotId : Option Nat
deriving DecidableEq, Repr

/-- The SQLite database state: the two tables (rows in insertion order) plus
the autoincrement counter for `snapshots.id` (SQLite assigns 1, 2, …).  A row
of the `events` table carries exactly the fields of a `WalletEvent`, with
`events.id` the event's UUID primary key. -/
structure Store where
  snaps : List SnapshotRow
  evs : List WalletEvent
  nextSnapshotId : Nat
deriving DecidableEq, Repr

/-- The empty database, as created by the migrations. -/
def Store.empty : Store := { snaps := [], evs := [], nextSnapshotId := 1 }

/-- Error conditions of the chain store, named after the spec's taxonomy
(§7).  In the source they are thrown respectively as
`DatabaseConstraintError` ("wallet … already has snapshots"), `Error`
("at least one event is required"), `Error` ("no previous snapshot exists"),
and `DatabaseConstraintError` ("Database constraint violation during
transaction"). -/
inductive RepoError where
  | DuplicateInitialization
  | EmptyEventSet
  | NoPredecessor
  | ConstraintViolation
deriving DecidableEq, Repr

/-- `SELECT … WHERE wallet = ?` over the `snapshots` table. -/
def snapshotsForWallet (st : Store) (wallet : String) : List SnapshotRow :=
  st.snaps.filter (fun r => r.wallet == wallet)

/-- SQLite's BINARY collation on TEXT: code-point-wise lexicographic
comparison of the two character lists. -/
def charListLt : List Char → List Char → Bool
  | [], [] => false
  | [], _ :: _ => true
  | _ :: _, [] => false
  | a :: as, b :: bs =>
    if a.toNat < b.toNat then true
    else if b.toNat < a.toNat then false
    else charListLt as bs

/-- `a < b` for two TEXT column values under SQLite's default BINARY
collation. -/
def textLt (a b : String) : Bool := charListLt a.data b.data

/-- One step of `ORDER BY timestamp DESC LIMIT 1`: keep the row with the
larger timestamp, the earlier-inserted one on ties (SQLite leaves the
tie-break unspecified; every property proved below is tie-agnostic). -/
def pickNewer (acc : Option SnapshotRow) (row : SnapshotRow) :
    Option SnapshotRow :=
  match acc with
  | none => some row
  | some best =>
    if textLt best.timestamp row.timestamp then some row else some best

/-- `ORDER BY timestamp DESC LIMIT 1` on the wallet-supplied TEXT
`timestamp` column (SQLite compares TEXT lexicographically; `String` carries
its lexicographic order here). -/
def latestByTimestamp (rows : List SnapshotRow) : Option SnapshotRow :=
  rows.foldl pickNewer none

/-- `INSERT INTO snapshots … RETURNING id`: one drizzle insert, one SQLite
statement running as its own implicit transaction; appends the row under the
next autoincrement id. -/
def insertSnapshotRow (st : Store) (wallet : String) (snapshotData : Snapshot)
    (timestamp : String) (prevSnapshotId : Option Nat) : Nat × Store :=
  (st.nextSnapshotId,
   { st with
      snaps := st.snaps ++
        [⟨st.nextSnapshotId, wallet, snapshotData, timestamp, prevSnapshotId⟩]
      nextSnapshotId := st.nextSnapshotId + 1 })

/-- The batched `INSERT INTO events VALUES …` of `saveSnapshotWithEvents`:
the single statement succeeds or fails as a whole; it fails when the PRIMARY
KEY on `events.id` is violated, i.e. when an inserted event id collides
within the batch or with an existing row (with real `crypto.randomUUID()`
ids this happens only when the caller hands over colliding ids — the
simulated mid-write failure used below). -/
def insertEventRows (st : Store) (rows : List WalletEvent) : Option Store :=
  if (rows.map (fun r => r.eventId)).Nodup ∧
      ∀ r ∈ rows, ∀ old ∈ st.evs, r.eventId ≠ old.eventId then
    some { st with evs := st.evs ++ rows }
  else none

/-- `SnapshotRepository.getLatest` (part_002 lines 274-320): select id and
`snapshot_data` for the wallet, `ORDER BY timestamp DESC LIMIT 1`, null when
the wallet has no rows. -/
def getLatest (st : Store) (wallet : String) : Option (Nat × Snapshot) :=
  (latestByTimestamp (snapshotsForWallet st wallet)).map
    (fun r => (r.id, r.snapshotData))

/-- `SnapshotRepository.getById` (part_002 lines 328-366). -/
def getById (st : Store) (id : Nat) : Option Snapshot :=
  (st.snaps.find? (fun r => r.id == id)).map (fun r => r.snapshotData)

/-- `SnapshotRepository.saveFirstSnapshot` (part_002 lines 30-111): fail with
the duplicate-initialization condition when any snapshot exists for the
wallet, otherwise insert the row with no predecessor and return its id. -/
def saveFirstSnapshot (st : Store) (snapshot : Snapshot) :
    Except RepoError Nat × Store :=
  if (snapshotsForWallet st snapshot.wallet).isEmpty then
    let r := insertSnapshotRow st snapshot.wallet snapshot snapshot.timestamp
      none
    (.ok r.1, r.2)
  else (.error .DuplicateInitialization, st)

/-- `SnapshotRepository.saveSnapshotWithEvents` (part_002 lines 125-266):
check the empty-event precondition, look up the predecessor
(`ORDER BY timestamp DESC LIMIT 1`), insert the snapshot row, then insert
all event rows (each event receiving the new `snapshotId`) in a *second*
insert statement.  The source opens no transaction — its comment claims the
two statements are "atomic via WAL mode", but each drizzle insert commits on
its own — so when the event insert fails, the already-committed snapshot row
stays in place and only the error is reported. -/
def saveSnapshotWithEvents (st : Store) (snapshot : Snapshot)
    (diffEvents : List DiffEvent) : Except RepoError Nat × Store :=
  if diffEvents.isEmpty then (.error .EmptyEventSet, st)
  else
    match latestByTimestamp (snapshotsForWallet st snapshot.wallet) with
    | none => (.error .NoPredecessor, st)
    | some previous =>
      let r := insertSnapshotRow st snapshot.wallet snapshot
        snapshot.timestamp (some previous.id)
      match insertEventRows r.2
          (diffEvents.map (fun e => { toDiffEvent := e, snapshotId := r.1 })) with
      | some st2 => (.ok r.1, st2)
      | none => (.error .ConstraintViolation, r.2)

/-! ## The orchestration service -/

/-- `SnapshotResult` from `src/services/snapshot-service.ts`. -/
structure SnapshotResult where
  snapshot : Snapshot
  events : List WalletEvent
  isFirstSnapshot : Bool
  saved : Bool
deriving DecidableEq, Repr

/-- `SnapshotService.takeSnapshot` (snapshot-service.ts lines 54-171) from
step 3 on: wallet validation (step 1) and the API fetch (step 2) are the
excluded collaborators of spec §1, so the fetched current snapshot is a
parameter.  The source computes `computeDiff` once before branching on the
previous snapshot; it is spelled per-branch here, with the same value
(`computeDiff none _ = []` in the first-snapshot branch).  Thrown database
errors propagate as `Except` errors. -/
def takeSnapshot (st : Store) (currentSnapshot : Snapshot) :
    Except RepoError SnapshotResult × Store :=
  match getLatest st currentSnapshot.wallet with
  | none =>
    match saveFirstSnapshot st currentSnapshot with
    | (.ok _, st1) =>
      (.ok { snapshot := currentSnapshot, events := [],
             isFirstSnapshot := true, saved := true }, st1)
    | (.error e, st1) => (.error e, st1)
  | some prev =>
    if (computeDiff (some prev.2) currentSnapshot).isEmpty then
      (.ok { snapshot := currentSnapshot, events := [],
             isFirstSnapshot := false, saved := false }, st)
    else
      match saveSnapshotWithEvents st currentSnapshot
          (computeDiff (some prev.2) currentSnapshot) with
      | (.ok snapshotId, st1) =>
        (.ok { snapshot := currentSnapshot,
               events := (computeDiff (some prev.2) currentSnapshot).map
                 (fun e => { toDiffEvent := e, snapshotId := snapshotId }),
               isFirstSnapshot := false, saved := true }, st1)
      | (.error e, st1) => (.error e, st1)

/-! ## Lemmas about `ORDER BY timestamp DESC LIMIT 1`

`textLt x y = false` reads "`x` is not below `y`", i.e. `y ≤ x`; a row `c`
returned by the fold dominates a row `r` when `textLt c.timestamp
r.timestamp = false` fails to hold in neither direction — we only ever use
the one-sided form `textLt c.timestamp r.timestamp = false` meaning
`r.timestamp ≤ c.timestamp`. -/

lemma charListLt_irrefl : ∀ l : List Char, charListLt l l = false := by
  intro l
  induction l with
  | nil => rfl
  | cons a t ih => simp [charListLt, ih]

lemma charListLt_asymm :
    ∀ l₁ l₂ : List Char, charListLt l₁ l₂ = true → charListLt l₂ l₁ = false := by
  intro l₁
  induction l₁ with
  | nil =>
    intro l₂ h
    cases l₂ with
    | nil => exact absurd h (by simp [charListLt])
    | cons b bs => rfl
  | cons a as ih =>
    intro l₂ h
    cases l₂ with
    | nil => exact absurd h (by simp [charListLt])
    | cons b bs =>
      simp only [charListLt] at h ⊢
      split_ifs at h ⊢
      all_goals first
        | rfl
        | (exact ih bs h)
        | (exfalso; omega)
        | (simp at h)

lemma charListLt_false_trans :
    ∀ l₁ l₂ l₃ : List Char, charListLt l₂ l₁ = false →
      charListLt l₃ l₂ = false → charListLt l₃ l₁ = false := by
  intro l₁
  induction l₁ with
  | nil =>
    intro l₂ l₃ h₁ h₂
    cases l₃ with
    | nil => rfl
    | cons c cs => rfl
  | cons a as ih =>
    intro l₂ l₃ h₁ h₂
    cases l₂ with
    | nil => simp [charListLt] at h₁
    | cons b bs =>
      cases l₃ with
      | nil => simp [charListLt] at h₂
      | cons c cs =>
        simp only [charListLt] at h₁ h₂ ⊢
        split_ifs at h₁ h₂ ⊢
        all_goals first
          | rfl
          | (exact ih bs cs h₁ h₂)
          | (exfalso; omega)
          | (simp at h₁)
          | (simp at h₂)

lemma textLt_irrefl (a : String) : textLt a a = false :=
  charListLt_irrefl a.data

lemma textLt_asymm {a b : String} (h : textLt a b = true) :
    textLt b a = false :=
  charListLt_asymm a.data b.data h

lemma textLt_false_trans {a b c : String} (h₁ : textLt b a = false)
    (h₂ : textLt c b = false) : textLt c a = false :=
  charListLt_false_trans a.data b.data c.data h₁ h₂

lemma foldl_pickNewer_some :
    ∀ (rows : List SnapshotRow) (b : SnapshotRow),
      ∃ c, rows.foldl pickNewer (some b) = some c ∧ (c = b ∨ c ∈ rows) ∧
        textLt c.timestamp b.timestamp = false ∧
        ∀ r ∈ rows, textLt c.timestamp r.timestamp = false := by
  intro rows
  induction rows with
  | nil =>
    intro b
    exact ⟨b, rfl, Or.inl rfl, textLt_irrefl _,
      fun r hr => absurd hr (List.not_mem_nil r)⟩
  | cons a t ih =>
    intro b
    rw [List.foldl_cons]
    by_cases h : textLt b.timestamp a.timestamp = true
    · obtain ⟨c, hc, hmem, hdom, hall⟩ := ih a
      have hstep : pickNewer (some b) a = some a := by
        simp [pickNewer, h]
      refine ⟨c, by rw [hstep]; exact hc, ?_, ?_, ?_⟩
      · rcases hmem with rfl | hmem
        · exact Or.inr (List.mem_cons_self _ _)
        · exact Or.inr (List.mem_cons_of_mem _ hmem)
      · exact textLt_false_trans (textLt_asymm h) hdom
      · intro r hr
        rcases List.mem_cons.mp hr with rfl | hr
        · exact hdom
        · exact hall r hr
    · rw [Bool.not_eq_true] at h
      obtain ⟨c, hc, hmem, hdom, hall⟩ := ih b
      have hstep : pickNewer (some b) a = some b := by
        simp [pickNewer, h]
      refine ⟨c, by rw [hstep]; exact hc, ?_, hdom, ?_⟩
      · rcases hmem with rfl | hmem
        · exact Or.inl rfl
        · exact Or.inr (List.mem_cons_of_mem _ hmem)
      · intro r hr
        rcases List.mem_cons.mp hr with rfl | hr
        · exact textLt_false_trans h hdom
        · exact hall r hr

lemma latestByTimestamp_eq_none_iff (rows : List SnapshotRow) :
    latestByTimestamp rows = none ↔ rows = [] := by
  cases rows with
  | nil => simp [latestByTimestamp]
  | cons a t =>
    unfold latestByTimestamp
    rw [List.foldl_cons]
    obtain ⟨c, hc, _, _, _⟩ := foldl_pickNewer_some t a
    rw [show pickNewer none a = some a from rfl, hc]
    simp

lemma latestByTimestamp_spec {rows : List SnapshotRow} {r : SnapshotRow}
    (h : latestByTimestamp rows = some r) :
    r ∈ rows ∧ ∀ q ∈ rows, textLt r.timestamp q.timestamp = false := by
  cases rows with
  | nil => simp [latestByTimestamp] at h
  | cons a t =>
    unfold latestByTimestamp at h
    rw [List.foldl_cons, show pickNewer none a = some a from rfl] at h
    obtain ⟨c, hc, hmem, hdom, hall⟩ := foldl_pickNewer_some t a
    rw [hc, Option.some_inj] at h
    subst h
    refine ⟨?_, ?_⟩
    · rcases hmem with rfl | hmem
      · exact List.mem_cons_self _ _
      · exact List.mem_cons_of_mem _ hmem
    · intro q hq
      rcases List.mem_cons.mp hq with rfl | hq
      · exact hdom
      · exact hall q hq

lemma mem_snapshotsForWallet {st : Store} {w : String} {r : SnapshotRow} :
    r ∈ snapshotsForWallet st w ↔ r ∈ st.snaps ∧ r.wallet = w := by
  unfold snapshotsForWallet
  rw [List.mem_filter]
  simp

/-! ## Claims about the chain store -/

/-- **C2**: the chain store's write preconditions are checked before any
write: `saveFirstSnapshot` fails with the duplicate-initialization condition
whenever a snapshot already exists for the wallet; `saveSnapshotWithEvents`
fails with the empty-event-set condition whenever the event list is empty
(this check runs first), and with the no-predecessor condition whenever the
list is non-empty but the wallet has no snapshot; in every failing case the
store is returned unchanged — nothing is written. -/
theorem chainStore_preconditions (st : Store) (snapshot : Snapshot)
    (diffEvents : List DiffEvent) :
    ((∃ r ∈ st.snaps, r.wallet = snapshot.wallet) →
      saveFirstSnapshot st snapshot =
        (.error .DuplicateInitialization, st)) ∧
    (diffEvents = [] →
      saveSnapshotWithEvents st snapshot diffEvents =
        (.error .EmptyEventSet, st)) ∧
    (diffEvents ≠ [] → (∀ r ∈ st.snaps, r.wallet ≠ snapshot.wallet) →
      saveSnapshotWithEvents st snapshot diffEvents =
        (.error .NoPredecessor, st)) := by
  refine ⟨?_, ?_, ?_⟩
  · rintro ⟨r, hr, hw⟩
    have hmem : r ∈ snapshotsForWallet st snapshot.wallet :=
      mem_snapshotsForWallet.mpr ⟨hr, hw⟩
    unfold saveFirstSnapshot
    rw [if_neg (fun hemp => by
      rw [List.isEmpty_iff] at hemp
      rw [hemp] at hmem
      exact List.not_mem_nil r hmem)]
  · rintro rfl
    rfl
  · intro hne hnone
    have hfilter : snapshotsForWallet st snapshot.wallet = [] :=
      List.filter_eq_nil_iff.mpr (fun r hr => by simp [hnone r hr])
    unfold saveSnapshotWithEvents
    rw [if_neg (fun hemp => hne (List.isEmpty_iff.mp hemp)), hfilter]
    rfl

/-- First snapshot of wallet "w" used by the store witnesses (empty
position list, earlier timestamp). -/
def atomSnapFirst : Snapshot :=
  { wallet := "w", timestamp := "2024-01-01T00:00:00.000Z", positions := [] }

/-- Store holding exactly the first snapshot of wallet "w". -/
def atomStore : Store := (saveFirstSnapshot Store.empty atomSnapFirst).2

/-- The single row of `atomStore`. -/
def atomRow1 : SnapshotRow :=
  ⟨1, "w", atomSnapFirst, "2024-01-01T00:00:00.000Z", none⟩

/-- A later snapshot of wallet "w" (also empty, so it diffs to `[]` against
`atomSnapFirst`). -/
def atomSnapNew : Snapshot :=
  { wallet := "w", timestamp := "2024-01-02T00:00:00.000Z", positions := [] }

/-- A non-empty diff event list handed to the store witnesses. -/
def storeDemoEvent : DiffEvent :=
  createEvent .POSITION_OPENED "w" samplePosition.marketId
    samplePosition.marketTitle none (some samplePosition)

/-- Witness for C2: each precondition failure observed on a concrete store,
with the store returned unchanged. -/
theorem chainStore_preconditions_witness :
    saveFirstSnapshot atomStore atomSnapFirst =
        (.error .DuplicateInitialization, atomStore) ∧
      saveSnapshotWithEvents atomStore atomSnapFirst [] =
        (.error .EmptyEventSet, atomStore) ∧
      saveSnapshotWithEvents Store.empty atomSnapFirst [storeDemoEvent] =
        (.error .NoPredecessor, Store.empty) :=
  ⟨(chainStore_preconditions atomStore atomSnapFirst []).1
      ⟨atomRow1, List.mem_singleton.mpr rfl, rfl⟩,
   (chainStore_preconditions atomStore atomSnapFirst []).2.1 rfl,
   (chainStore_preconditions Store.empty atomSnapFirst [storeDemoEvent]).2.2
      (by simp) (fun r hr => absurd hr (List.not_mem_nil r))⟩

/-- **C6 (amended)**: `getLatest` returns null exactly when the wallet has
no snapshots; otherwise it returns a stored snapshot of that wallet whose
*wallet-supplied timestamp* is maximal among the wallet's snapshots — the
ordering is the `timestamp` column, not creation recency (SQLite leaves the
tie-break among equal timestamps unspecified). -/
theorem getLatest_max_timestamp (st : Store) (w : String) :
    (getLatest st w = none ↔ ∀ r ∈ st.snaps, r.wallet ≠ w) ∧
    (∀ id snap, getLatest st w = some (id, snap) →
      ∃ r ∈ st.snaps, r.wallet = w ∧ r.id = id ∧ r.snapshotData = snap ∧
        ∀ q ∈ st.snaps, q.wallet = w →
          textLt r.timestamp q.timestamp = false) := by
  constructor
  · unfold getLatest
    rw [Option.map_eq_none', latestByTimestamp_eq_none_iff]
    constructor
    · intro hnil r hr hw
      have hmem : r ∈ snapshotsForWallet st w :=
        mem_snapshotsForWallet.mpr ⟨hr, hw⟩
      rw [hnil] at hmem
      exact List.not_mem_nil r hmem
    · intro h
      exact List.filter_eq_nil_iff.mpr (fun r hr => by simp [h r hr])
  · intro id snap hsome
    unfold getLatest at hsome
    rw [Option.map_eq_some'] at hsome
    obtain ⟨r, hr, heq⟩ := hsome
    obtain ⟨hmem, hmax⟩ := latestByTimestamp_spec hr
    obtain ⟨hmem', hw⟩ := mem_snapshotsForWallet.mp hmem
    rw [Prod.mk.injEq] at heq
    exact ⟨r, hmem', hw, heq.1, heq.2,
      fun q hq hqw => hmax q (mem_snapshotsForWallet.mpr ⟨hq, hqw⟩)⟩

/-- First-created snapshot of the chronology demo: *later* wallet-supplied
timestamp. -/
def storeDemoSnapA : Snapshot :=
  { wallet := "w", timestamp := "2024-02-01T00:00:00.000Z", positions := [] }

/-- Second-created snapshot of the chronology demo: *earlier* wallet-supplied
timestamp and different content. -/
def storeDemoSnapB : Snapshot :=
  { wallet := "w", timestamp := "2024-01-01T00:00:00.000Z",
    positions := [samplePosition] }

/-- A store reached by the two legal write operations, in which creation
order and timestamp order disagree: row 1 carries the newer timestamp, row 2
was created last. -/
def chronoStore : Store :=
  (saveSnapshotWithEvents (saveFirstSnapshot Store.empty storeDemoSnapA).2
    storeDemoSnapB [storeDemoEvent]).2

/-- Definition following the claim's words, for refutation only: the most
recently *created* snapshot row of a wallet, i.e. among the wallet's rows
the one with the greatest autoincrement id (ids are assigned in creation
order). -/
def latestCreatedRow (st : Store) (w : String) : Option SnapshotRow :=
  (snapshotsForWallet st w).foldl
    (fun acc row =>
      match acc with
      | none => some row
      | some best => if best.id < row.id then some row else some best)
    none

/-- Counterexample to C6 as stated: on `chronoStore`, `getLatest` returns
row 1 (greatest wallet-supplied timestamp), not the most recently created
row 2 — the source orders by the `timestamp` column, not by creation. -/
theorem getLatest_not_by_creation :
    getLatest chronoStore "w" = some (1, storeDemoSnapA) ∧
      (latestCreatedRow chronoStore "w").map (fun r => (r.id, r.snapshotData)) =
        some (2, storeDemoSnapB) ∧
      getLatest chronoStore "w" ≠
        (latestCreatedRow chronoStore "w").map
          (fun r => (r.id, r.snapshotData)) := by
  refine ⟨rfl, rfl, ?_⟩
  rw [show (latestCreatedRow chronoStore "w").map
      (fun r => (r.id, r.snapshotData)) = some (2, storeDemoSnapB) from rfl]
  rw [show getLatest chronoStore "w" = some (1, storeDemoSnapA) from rfl]
  intro h
  rw [Option.some_inj, Prod.mk.injEq] at h
  exact absurd h.1 (by norm_num)

/-- Witness for the amended C6 at `chronoStore`: the returned row's
timestamp is maximal among wallet "w"'s rows. -/
theorem getLatest_max_timestamp_witness :
    getLatest chronoStore "w" = some (1, storeDemoSnapA) ∧
      ∃ r ∈ chronoStore.snaps, r.wallet = "w" ∧ r.id = 1 ∧
        r.snapshotData = storeDemoSnapA ∧
        ∀ q ∈ chronoStore.snaps, q.wallet = "w" →
          textLt r.timestamp q.timestamp = false :=
  ⟨rfl, (getLatest_max_timestamp chronoStore "w").2 1 storeDemoSnapA rfl⟩

/-- **C7**: when a previous snapshot exists and the diff is empty,
`takeSnapshot` returns `{snapshot: current, events: [], isFirstSnapshot:
false, saved: false}` and performs no write at all — the store is returned
exactly as it was, so every wallet's chain and event records are
unchanged. -/
theorem takeSnapshot_skip_on_empty_diff (st : Store)
    (currentSnapshot : Snapshot) (idPrev : Nat) (prevSnap : Snapshot)
    (hprev : getLatest st currentSnapshot.wallet = some (idPrev, prevSnap))
    (hdiff : computeDiff (some prevSnap) currentSnapshot = []) :
    takeSnapshot st currentSnapshot =
      (.ok { snapshot := currentSnapshot, events := [],
             isFirstSnapshot := false, saved := false }, st) := by
  unfold takeSnapshot
  rw [hprev]
  simp only [hdiff, List.isEmpty_nil, if_true]

/-- Witness for C7: a second, unchanged observation of wallet "w" is
returned with `saved := false` and the store is untouched. -/
theorem takeSnapshot_skip_witness :
    takeSnapshot atomStore atomSnapNew =
      (.ok { snapshot := atomSnapNew, events := [],
             isFirstSnapshot := false, saved := false }, atomStore) :=
  takeSnapshot_skip_on_empty_diff atomStore atomSnapNew 1 atomSnapFirst rfl rfl

/-- A second demo event whose (placeholder) event id collides with
`storeDemoEvent`'s — the simulated mid-write failure of spec §8 P8: the
batched event insert violates the PRIMARY KEY on `events.id` and fails. -/
def storeDemoClosedEvent : DiffEvent :=
  createEvent .POSITION_CLOSED "w" "m2" "Other market" (some samplePosition)
    none

/-- **C1 (code bug)**: `saveSnapshotWithEvents` is *not* atomic.  At a store
holding wallet "w"'s first snapshot, a call whose event insert fails (the
two events collide on the `events.id` primary key) reports an error, yet the
new snapshot row (id 2) remains visible in the store while no event was
written — the snapshot row is not rolled back, contradicting the
repository's own doc comment ("Uses a transaction to ensure atomicity -
both snapshot and events are saved together or neither is saved"). -/
theorem saveSnapshotWithEvents_not_atomic :
    (saveSnapshotWithEvents atomStore atomSnapNew
        [storeDemoEvent, storeDemoClosedEvent]).1 =
      .error .ConstraintViolation ∧
    (saveSnapshotWithEvents atomStore atomSnapNew
        [storeDemoEvent, storeDemoClosedEvent]).2.snaps =
      atomStore.snaps ++
        [⟨2, "w", atomSnapNew, "2024-01-02T00:00:00.000Z", some 1⟩] ∧
    (saveSnapshotWithEvents atomStore atomSnapNew
        [storeDemoEvent, storeDemoClosedEvent]).2.evs = [] :=
  ⟨rfl, rfl, rfl⟩

end Polymonitor
